import Mathlib

/-!
Shallow embedding of `src/pydap/handlers/binary/ssmi/__init__.py`
(class `BinarySsmiHandler`): the slice semantics used by the decoder,
the coordinate generators `read_variable_lat` / `read_variable_lon` /
`read_variable_part`, the flat-grid decoder `read_variable_data`, and the
orchestration in `parse_constraints`, together with theorems settling the
specification claims about them.

Machine integers are modelled as `ℕ`; the file's floating-point coordinate
values are exact dyadic rationals (multiples of 1/8, all exactly
representable in both float32 and float64), so they are modelled in `ℚ`
with the exact literals of the source.
-/

set_option maxHeartbeats 1000000

namespace SSMI

/-- A Python slice object `slice(start, stop, step)` restricted to the
non-negative bounds and non-negative step produced by pydap's hyperslab
parser.  All slices reaching the handler's methods are applied to
`range(n)` for a fixed axis size `n`. -/
structure Slice where
  start : ℕ
  stop : ℕ
  step : ℕ
deriving DecidableEq

instance : Inhabited Slice := ⟨⟨0, 0, 1⟩⟩

/-- `len(range(n)[s])` for a slice `s` with non-negative bounds and
positive step: Python clamps `start` and `stop` into `[0, n]` and counts
the indices `start, start + step, …` strictly below the clamped stop. -/
def sliceLen (n : ℕ) (s : Slice) : ℕ :=
  if min s.start n < min s.stop n then
    (min s.stop n - min s.start n + s.step - 1) / s.step
  else 0

/-- The list `range(n)[s]` of source indices visited by a slice, in visit
order: `start, start + step, start + 2*step, …` strictly below `stop`,
with both bounds clamped to `[0, n]`. -/
def sliceIndices (n : ℕ) (s : Slice) : List ℕ :=
  (List.range (sliceLen n s)).map (fun t => min s.start n + t * s.step)

/-- The longitude value the source computes for grid index `i`
(`lonValue = 0.25 * (i+1) - 0.125` in `read_variable_lon`). -/
def lonValue (i : ℕ) : ℚ := 0.25 * ((i : ℚ) + 1) - 0.125

/-- The latitude value the source computes for grid index `j`
(`latValue = 0.25 * j - 90.125` in `read_variable_lat`). -/
def latValue (j : ℕ) : ℚ := 0.25 * (j : ℚ) - 90.125

/-- `BinarySsmiHandler.read_variable_lat`: iterates `range(720)[slices_lat]`
and fills a fresh buffer with `0.25 * j - 90.125` for each visited `j`. -/
def read_variable_lat (slices_lat : Slice) : List ℚ :=
  (sliceIndices 720 slices_lat).map latValue

/-- `BinarySsmiHandler.read_variable_lon`: iterates `range(1440)[slices_lot]`
and fills a fresh buffer with `0.25 * (i+1) - 0.125` for each visited `i`. -/
def read_variable_lon (slices_lot : Slice) : List ℚ :=
  (sliceIndices 1440 slices_lot).map lonValue

/-- `BinarySsmiHandler.read_variable_part`: iterates `range(2)[slices_part]`
and fills a fresh buffer with the index itself. -/
def read_variable_part (slices_part : Slice) : List ℕ :=
  (sliceIndices 2 slices_part).map (fun i => i)

/-- The Python exceptions the handler's code can raise while processing a
projection (file-open errors are external and out of scope). -/
inductive PyError where
  | valueError : String → PyError
  | typeError : String → PyError
  | indexError : String → PyError
deriving DecidableEq

/-- `read_variable_lon` with Python's slicing error behaviour made
explicit: `range(1440)[slices_lot]` raises `ValueError` iff the slice step
is zero; out-of-domain bounds are silently clamped, never rejected. -/
def read_variable_lon_checked (slices_lot : Slice) : Except PyError (List ℚ) :=
  if slices_lot.step = 0 then
    Except.error (PyError.valueError ("slice step cannot be zero"))
  else Except.ok (read_variable_lon slices_lot)

/-- `read_variable_lat` with Python's slicing error behaviour made
explicit (see `read_variable_lon_checked`). -/
def read_variable_lat_checked (slices_lat : Slice) : Except PyError (List ℚ) :=
  if slices_lat.step = 0 then
    Except.error (PyError.valueError ("slice step cannot be zero"))
  else Except.ok (read_variable_lat slices_lat)

/-- `read_variable_part` with Python's slicing error behaviour made
explicit (see `read_variable_lon_checked`). -/
def read_variable_part_checked (slices_part : Slice) : Except PyError (List ℕ) :=
  if slices_part.step = 0 then
    Except.error (PyError.valueError ("slice step cannot be zero"))
  else Except.ok (read_variable_part slices_part)

/-- The byte offset the decoder computes for source indices
`(i = lon, j = lat, k = part)` and catalog variable index `index`:
`byteIndex = (1440 * j + i) + (1440 * 720 * index) + (1440 * 720 * 5 * k)`
(line 279 of the source). -/
def byteIndex (index i j k : ℕ) : ℕ :=
  (1440 * j + i) + (1440 * 720 * index) + (1440 * 720 * 5 * k)

/-- The shape `np.empty((len(range(1440)[s0]), len(range(720)[s1]),
len(range(2)[s2])))` the decoder allocates for its output buffer. -/
def dataShape (s0 s1 s2 : Slice) : ℕ × ℕ × ℕ :=
  (sliceLen 1440 s0, sliceLen 720 s1, sliceLen 2 s2)

/-- The sequence of assignments performed by the triple loop of
`BinarySsmiHandler.read_variable_data`, in execution order: for each
visited source triple `(i, j, k)` the code executes
`buf[i - s0.start][j - s1.start][k - s2.start] = bytes[byteIndex]`.
Each list element is `((output coordinate), value written)`.  Note the
source subtracts only the slice start, it does not divide by the step. -/
def read_variable_data_writes (bytes : ℕ → ℕ) (index : ℕ) (s0 s1 s2 : Slice) :
    List ((ℕ × ℕ × ℕ) × ℕ) :=
  (sliceIndices 1440 s0).flatMap (fun i =>
    (sliceIndices 720 s1).flatMap (fun j =>
      (sliceIndices 2 s2).map (fun k =>
        ((i - s0.start, j - s1.start, k - s2.start),
         bytes (byteIndex index i j k)))))

/-- `BinarySsmiHandler.read_variable_data` with Python's error behaviour
made explicit: a zero step raises `ValueError` from `range(...)[slice]`
(when allocating the buffer, before any write), and a write whose output
coordinate falls outside the allocated shape raises `IndexError` from
numpy.  Otherwise the full write sequence is returned. -/
def read_variable_data_checked (bytes : ℕ → ℕ) (index : ℕ) (s0 s1 s2 : Slice) :
    Except PyError (List ((ℕ × ℕ × ℕ) × ℕ)) :=
  if s0.step = 0 ∨ s1.step = 0 ∨ s2.step = 0 then
    Except.error (PyError.valueError ("slice step cannot be zero"))
  else
    let sh := dataShape s0 s1 s2
    let ws := read_variable_data_writes bytes index s0 s1 s2
    if ws.all (fun w =>
        decide (w.1.1 < sh.1 ∧ w.1.2.1 < sh.2.1 ∧ w.1.2.2 < sh.2.2)) then
      Except.ok ws
    else
      Except.error (PyError.indexError ("index out of bounds"))

/-- The fixed order of `self.variables` in `BinarySsmiHandler.__init__`;
this order is the variable index used in the offset arithmetic. -/
def variableNames : List String := ["time", "wspd", "vapor", "cloud", "rain"]

/-- The coordinate names tested by
`if var_name in ['lat', 'lon', 'part_of_day']` in `parse_constraints`. -/
def coordNames : List String := ["lat", "lon", "part_of_day"]

/-- The keys of `self.dataset` in insertion order (`__init__` inserts the
three coordinate arrays and then one grid per catalog variable). -/
def datasetKeys : List String :=
  ["lon", "lat", "part_of_day", "time", "wspd", "vapor", "cloud", "rain"]

/-- The mutable per-grid sample state held inside one `GridType` entry of
`self.dataset`: the `.data` fields of its `lon`, `lat`, `part_of_day`
children and of the main variable child.  `__init__` leaves all of them
unset (`None`); `parse_constraints` overwrites them. -/
structure GridData where
  gridLon : Option (List ℚ)
  gridLat : Option (List ℚ)
  gridPart : Option (List ℕ)
  gridMain : Option (List ((ℕ × ℕ × ℕ) × ℕ))
deriving DecidableEq

/-- The mutable sample state of `self.dataset`: the `.data` fields of the
three top-level coordinate entries and the per-variable grid states.  The
immutable schema (shapes, attributes, catalog order) is not part of the
state; it never changes. -/
structure DatasetState where
  lonData : Option (List ℚ)
  latData : Option (List ℚ)
  partData : Option (List ℕ)
  timeGrid : GridData
  wspdGrid : GridData
  vaporGrid : GridData
  cloudGrid : GridData
  rainGrid : GridData
deriving DecidableEq

/-- A grid entry with no sample data loaded, as built by `__init__`. -/
def noData : GridData := ⟨none, none, none, none⟩

/-- The dataset state right after `BinarySsmiHandler.__init__`: every
`.data` field is `None`. -/
def initState : DatasetState := ⟨none, none, none, noData, noData, noData, noData, noData⟩

/-- `self.dataset[name] = grid` for a catalog variable `name`; any other
name leaves the state unchanged (the source only assigns to names found
in `self.variables`). -/
def setGrid (st : DatasetState) (name : String) (g : GridData) : DatasetState :=
  if name = "time" then { st with timeGrid := g }
  else if name = "wspd" then { st with wspdGrid := g }
  else if name = "vapor" then { st with vaporGrid := g }
  else if name = "cloud" then { st with cloudGrid := g }
  else if name = "rain" then { st with rainGrid := g }
  else st

/-- One projection entry as produced by pydap's `parse_qs`: a non-empty
hierarchy of `(name, slices)` pairs.  Flat queries have a single level. -/
abbrev ProjEntry := List (String × List Slice)

/-- `var[len(var)-1][0]`: the name of the last hierarchy level, which
`parse_constraints` uses to dispatch. -/
def lastName (var : ProjEntry) : String := ((var.getLast?).getD ("", [])).1

/-- `var[len(var)-1][1]`: the slices of the last hierarchy level. -/
def lastSlices (var : ProjEntry) : List Slice := ((var.getLast?).getD ("", [])).2

/-- `var[0][0]`: the name of the first hierarchy level, which the pruning
loop at the end of `parse_constraints` collects into `val_arr`. -/
def firstName (var : ProjEntry) : String := ((var.head?).getD ("", [])).1

/-- The state effect of one projection entry, extracted from
`processVar`: either the entry raises (same branches, same errors), or it
writes nothing (`none`, a non-catalog name), or it overwrites exactly one
grid entry with freshly computed data (`some (name, grid)`).  The update
is independent of the incoming dataset state; see `processVar_eq_map`. -/
def varUpdate (bytes : ℕ → ℕ) (var : ProjEntry) :
    Except PyError (Option (String × GridData)) :=
  let name := lastName var
  if name = "lat" ∨ name = "lon" ∨ name = "part_of_day" then
    if name = "lon" then
      Except.error (PyError.typeError ("read_variable_lon missing required argument slices_lot"))
    else if name = "lat" then
      Except.error (PyError.typeError ("read_variable_lat missing required argument slices_lat"))
    else
      Except.error (PyError.typeError ("read_variable_part missing required argument slices_part"))
  else
    match variableNames.findIdx? (fun v => v = name) with
    | none => Except.ok none
    | some index =>
      let slices := lastSlices var
      if slices.length ≠ 3 then
        Except.error (PyError.valueError ("Cannot obtain slices for " ++ name ++
          ". Should be 3 slices, but " ++ toString slices.length ++ " found"))
      else
        let s0 := slices.getD 0 default
        let s1 := slices.getD 1 default
        let s2 := slices.getD 2 default
        match read_variable_lon_checked s0 with
        | Except.error e => Except.error e
        | Except.ok lonD =>
          match read_variable_lat_checked s1 with
          | Except.error e => Except.error e
          | Except.ok latD =>
            match read_variable_part_checked s2 with
            | Except.error e => Except.error e
            | Except.ok partD =>
              match read_variable_data_checked bytes index s0 s1 s2 with
              | Except.error e => Except.error e
              | Except.ok dat =>
                Except.ok (some (name, ⟨some lonD, some latD, some partD, some dat⟩))

/-- Apply one extracted update to the dataset state. -/
def applyUpd (st : DatasetState) (u : Option (String × GridData)) : DatasetState :=
  match u with
  | none => st
  | some (n, g) => setGrid st n g

/-- The body of the `for var in projection` loop of `parse_constraints`
for one projection entry, acting on the dataset state:

* a coordinate name hits a branch that calls the corresponding
  `read_variable_*` method with no argument, a `TypeError` (the methods
  all require their slice parameter);
* otherwise the entry acts only if its name is in `self.variables`; a
  non-catalog name falls through the loop silently;
* a catalog name with a slice count other than 3 raises the source's
  `ValueError`; otherwise the three coordinate sub-arrays and the data
  block are computed (in source order) and stored into the grid entry.

The `index` used for the data read is the position of the name in
`self.variables`, exactly as the source's inner search loop computes.

The loop body's only state effect is the four `.data` assignments into the
grid entry for `name`; this is factored as `varUpdate` (the computation
and dispatch, state-independent) followed by `applyUpd` (the assignment),
see `processVar_eq_map`. -/
def processVar (bytes : ℕ → ℕ) (st : DatasetState) (var : ProjEntry) :
    Except PyError DatasetState :=
  (varUpdate bytes var).map (applyUpd st)

/-- The whole `for var in projection` loop: entries are processed left to
right; the first raised exception aborts the loop. -/
def processAll (bytes : ℕ → ℕ) (st : DatasetState) (q : List ProjEntry) :
    Except PyError DatasetState :=
  match q with
  | [] => Except.ok st
  | v :: rest =>
    match processVar bytes st v with
    | Except.error e => Except.error e
    | Except.ok st2 => processAll bytes st2 rest

/-- `BinarySsmiHandler.parse_constraints`, given the already-materialised
byte buffer (file opening is the out-of-scope transport layer) and the
current dataset state.  With an empty projection nothing is processed and
the deep copy of the full dataset is returned (all keys survive).  With a
non-empty projection each entry is processed (mutating the dataset state),
then the deep copy is pruned to the keys whose first-level name occurs in
the projection.  The result is the pair (surviving keys in dataset order,
dataset state after the call); the pruned copy's sample data is read off
the returned state. -/
def parse_constraints (bytes : ℕ → ℕ) (st : DatasetState) (q : List ProjEntry) :
    Except PyError (List String × DatasetState) :=
  match q with
  | [] => Except.ok (datasetKeys, st)
  | _ :: _ =>
    match processAll bytes st q with
    | Except.error e => Except.error e
    | Except.ok st2 =>
      Except.ok (datasetKeys.filter (fun k => (q.map firstName).contains k), st2)

/-- The updates of a whole projection, in order, stopping at the first
raised exception (mirrors `processAll`). -/
def collectUpds (bytes : ℕ → ℕ) (q : List ProjEntry) :
    Except PyError (List (Option (String × GridData))) :=
  match q with
  | [] => Except.ok []
  | v :: rest =>
    match varUpdate bytes v with
    | Except.error e => Except.error e
    | Except.ok u =>
      match collectUpds bytes rest with
      | Except.error e => Except.error e
      | Except.ok us => Except.ok (u :: us)

/-- The last grid written for a given name by a list of updates, if any. -/
def lastGrid (us : List (Option (String × GridData))) (nm : String) : Option GridData :=
  ((us.filterMap id).reverse.find? (fun p => p.1 = nm)).map Prod.snd

/-- The grid data `parse_constraints` computes for `wspd` under the
window `lon = [0,1,1), lat = [0,1,1), part = [0,1,1)` when the raw buffer
is the identity function: `wspd` has catalog index 1, so the single
decoded sample sits at byte offset `1440 * 720 * 1 = 1036800`. -/
def gridWspd01 : GridData :=
  ⟨some [lonValue 0], some [latValue 0], some [0], some [((0, 0, 0), 1036800)]⟩

deriving instance DecidableEq for Except

attribute [ext] GridData DatasetState

/-! ### Basic facts about the slice semantics -/

theorem mem_sliceIndices {n : ℕ} {s : Slice} {i : ℕ} :
    i ∈ sliceIndices n s ↔ ∃ t, t < sliceLen n s ∧ i = min s.start n + t * s.step := by
  simp only [sliceIndices, List.mem_map, List.mem_range]
  constructor
  · rintro ⟨t, ht, rfl⟩; exact ⟨t, ht, rfl⟩
  · rintro ⟨t, ht, rfl⟩; exact ⟨t, ht, rfl⟩

theorem sliceIndices_lb {n : ℕ} {s : Slice} {i : ℕ} (h : i ∈ sliceIndices n s) :
    min s.start n ≤ i := by
  rcases mem_sliceIndices.1 h with ⟨t, _, rfl⟩
  exact Nat.le_add_right _ _

theorem sliceIndices_ub {n : ℕ} {s : Slice} {i : ℕ} (hstep : 1 ≤ s.step)
    (h : i ∈ sliceIndices n s) : i < min s.stop n := by
  rcases mem_sliceIndices.1 h with ⟨t, ht, rfl⟩
  by_cases hlt : min s.start n < min s.stop n
  · have hlen : sliceLen n s = (min s.stop n - min s.start n + s.step - 1) / s.step := by
      simp [sliceLen, hlt]
    rw [hlen] at ht
    have h1 : min s.stop n - min s.start n + s.step - 1
        = (min s.stop n - min s.start n - 1) + s.step := by omega
    rw [h1, Nat.add_div_right _ (by omega : 0 < s.step)] at ht
    have h2 : t ≤ (min s.stop n - min s.start n - 1) / s.step := by omega
    have h3 : t * s.step ≤ ((min s.stop n - min s.start n - 1) / s.step) * s.step :=
      Nat.mul_le_mul_right _ h2
    have h4 : ((min s.stop n - min s.start n - 1) / s.step) * s.step
        ≤ min s.stop n - min s.start n - 1 := Nat.div_mul_le_self _ _
    omega
  · have : sliceLen n s = 0 := by simp [sliceLen, hlt]
    omega

theorem sliceLen_valid {n : ℕ} {s : Slice} (h1 : s.start < s.stop) (h2 : s.stop ≤ n) :
    sliceLen n s = (s.stop - s.start + s.step - 1) / s.step := by
  have ha : min s.start n = s.start := Nat.min_eq_left (by omega)
  have hb : min s.stop n = s.stop := Nat.min_eq_left h2
  simp [sliceLen, ha, hb, h1]

theorem sliceIndices_full (n : ℕ) : sliceIndices n ⟨0, n, 1⟩ = List.range n := by
  have hlen : sliceLen n ⟨0, n, 1⟩ = n := by
    rcases Nat.eq_zero_or_pos n with h | h
    · simp [sliceLen, h]
    · simp [sliceLen, h]
  simp [sliceIndices, hlen]

/-- Shared helper: over a valid window `(start, stop, step)` with
`0 ≤ start < stop ≤ n` and `step ≥ 1`, the slice visits exactly
`ceil((stop - start) / step) = (stop - start + step - 1) / step` indices,
all inside `[start, stop)`. -/
theorem sliceIndices_valid_window {n : ℕ} {s : Slice} (h1 : s.start < s.stop)
    (h2 : s.stop ≤ n) (hstep : 1 ≤ s.step) :
    (sliceIndices n s).length = (s.stop - s.start + s.step - 1) / s.step ∧
    ∀ i ∈ sliceIndices n s, s.start ≤ i ∧ i < s.stop := by
  constructor
  · simp [sliceIndices, sliceLen_valid h1 h2]
  · intro i hi
    have ha := sliceIndices_lb hi
    have hb := sliceIndices_ub hstep hi
    have hc : min s.start n = s.start := Nat.min_eq_left (by omega)
    have hd : min s.stop n ≤ s.stop := Nat.min_le_left _ _
    omega

/-- C1: for every variable index `v < 5` and in-range source triple
`(i, j, k)`, decoding the full `[0,1440)×[0,720)×[0,2)` window with step 1
places at output coordinate `(i, j, k)` exactly the raw buffer element at
offset `(1440*j + i) + (1440*720*v) + (1440*720*5*k)`: that write occurs,
and every write to that output coordinate writes that value. -/
theorem read_variable_data_full_window_offset (bytes : ℕ → ℕ) (v i j k : ℕ)
    (hv : v < 5) (hi : i < 1440) (hj : j < 720) (hk : k < 2) :
    ((i, j, k), bytes (byteIndex v i j k)) ∈
      read_variable_data_writes bytes v ⟨0, 1440, 1⟩ ⟨0, 720, 1⟩ ⟨0, 2, 1⟩ ∧
    ∀ w ∈ read_variable_data_writes bytes v ⟨0, 1440, 1⟩ ⟨0, 720, 1⟩ ⟨0, 2, 1⟩,
      w.1 = (i, j, k) → w.2 = bytes (byteIndex v i j k) := by
  have h0 : read_variable_data_writes bytes v ⟨0, 1440, 1⟩ ⟨0, 720, 1⟩ ⟨0, 2, 1⟩
      = (List.range 1440).flatMap (fun a => (List.range 720).flatMap (fun b =>
          (List.range 2).map (fun c => ((a, b, c), bytes (byteIndex v a b c))))) := by
    simp [read_variable_data_writes, sliceIndices_full]
  constructor
  · rw [h0]
    simp only [List.mem_flatMap, List.mem_map, List.mem_range]
    exact ⟨i, hi, j, hj, k, hk, rfl⟩
  · rw [h0]
    simp only [List.mem_flatMap, List.mem_map, List.mem_range]
    rintro w ⟨a, _, b, _, c, _, rfl⟩ heq
    simp only [Prod.mk.injEq] at heq
    obtain ⟨h1, h2, h3⟩ := heq
    subst h1; subst h2; subst h3
    rfl

/-- Witness for C1 at `bytes = id`, `v = 1`, `(i, j, k) = (2, 3, 1)`. -/
theorem read_variable_data_full_window_offset_witness :
    ((2, 3, 1), (fun n => n) (byteIndex 1 2 3 1)) ∈
      read_variable_data_writes (fun n => n) 1 ⟨0, 1440, 1⟩ ⟨0, 720, 1⟩ ⟨0, 2, 1⟩ ∧
    ∀ w ∈ read_variable_data_writes (fun n => n) 1 ⟨0, 1440, 1⟩ ⟨0, 720, 1⟩ ⟨0, 2, 1⟩,
      w.1 = (2, 3, 1) → w.2 = (fun n => n) (byteIndex 1 2 3 1) :=
  read_variable_data_full_window_offset (fun n => n) 1 2 3 1 (by decide) (by decide)
    (by decide) (by decide)

/-- C2 (code bug): for the strided window `lon = slice(0,3,2)`,
`lat = slice(0,1,1)`, `part = slice(0,1,1)` on variable index 0, the
decoder allocates a lon extent of 2 but indexes the output buffer by
`i - start` without dividing by the step: the visited index `i = 2` is
written at output coordinate `(2,0,0)`, outside the allocated shape (a
numpy `IndexError`), while the coordinate `(1,0,0)` demanded by the
specification never receives a write. -/
theorem read_variable_data_stride_out_of_bounds :
    (dataShape ⟨0, 3, 2⟩ ⟨0, 1, 1⟩ ⟨0, 1, 1⟩).1 = 2 ∧
    ((2, 0, 0), 2) ∈ read_variable_data_writes (fun n => n) 0 ⟨0, 3, 2⟩ ⟨0, 1, 1⟩ ⟨0, 1, 1⟩ ∧
    (∀ w ∈ read_variable_data_writes (fun n => n) 0 ⟨0, 3, 2⟩ ⟨0, 1, 1⟩ ⟨0, 1, 1⟩,
      w.1 ≠ (1, 0, 0)) ∧
    read_variable_data_checked (fun n => n) 0 ⟨0, 3, 2⟩ ⟨0, 1, 1⟩ ⟨0, 1, 1⟩
      = Except.error (PyError.indexError ("index out of bounds")) := by decide

/-- C3 refuted at the endpoints: the source's own formulas give
`longitude(0) = 0.25*(0+1) - 0.125 = 0.125`, not `-0.125`, and
`latitude(719) = 0.25*719 - 90.125 = 89.625`, not `89.875`. -/
theorem coordinate_endpoints_counterexample :
    lonValue 0 = 0.125 ∧ lonValue 0 ≠ -0.125 ∧
    latValue 719 = 89.625 ∧ latValue 719 ≠ 89.875 := by
  refine ⟨?_, ?_, ?_, ?_⟩ <;> norm_num [lonValue, latValue]

/-- C3 amended: the generated coordinates satisfy
`longitude(i) = 0.25*(i+1) - 0.125` and `latitude(j) = 0.25*j - 90.125`
(the full-axis generators produce exactly these values in index order),
longitude is strictly increasing over `[0, 1439]`, and the endpoint
values are `longitude(0) = 0.125`, `longitude(1439) = 359.875`,
`latitude(0) = -90.125`, `latitude(719) = 89.625`. -/
theorem coordinate_values_amended (i j : ℕ) (hij : i < j) (hj : j ≤ 1439) :
    lonValue i < lonValue j ∧
    read_variable_lon ⟨0, 1440, 1⟩ = (List.range 1440).map lonValue ∧
    read_variable_lat ⟨0, 720, 1⟩ = (List.range 720).map latValue ∧
    lonValue 0 = 0.125 ∧ lonValue 1439 = 359.875 ∧
    latValue 0 = -90.125 ∧ latValue 719 = 89.625 := by
  refine ⟨?_, ?_, ?_, ?_, ?_, ?_, ?_⟩
  · have h : (i : ℚ) < j := by exact_mod_cast hij
    unfold lonValue
    linarith
  · simp [read_variable_lon, sliceIndices_full]
  · simp [read_variable_lat, sliceIndices_full]
  all_goals norm_num [lonValue, latValue]

/-- Witness for the amended C3 at `i = 0 < j = 1439`. -/
theorem coordinate_values_amended_witness :
    lonValue 0 < lonValue 1439 ∧
    read_variable_lon ⟨0, 1440, 1⟩ = (List.range 1440).map lonValue ∧
    read_variable_lat ⟨0, 720, 1⟩ = (List.range 720).map latValue ∧
    lonValue 0 = 0.125 ∧ lonValue 1439 = 359.875 ∧
    latValue 0 = -90.125 ∧ latValue 719 = 89.625 :=
  coordinate_values_amended 0 1439 (by decide) (by decide)

/-- C4: over any valid window (`0 ≤ start < stop ≤ axis_size`,
`step ≥ 1`), the coordinate generators (longitude, axis size 1440, and
day-part, axis size 2) produce exactly `ceil((stop-start)/step)` values
(written `(stop - start + step - 1) / step` in `ℕ`), and every visited
source index lies in `[start, stop)`. -/
theorem window_length_law (s : Slice) (h1 : s.start < s.stop) (hstep : 1 ≤ s.step) :
    (s.stop ≤ 1440 →
      (read_variable_lon s).length = (s.stop - s.start + s.step - 1) / s.step ∧
      ∀ i ∈ sliceIndices 1440 s, s.start ≤ i ∧ i < s.stop) ∧
    (s.stop ≤ 2 →
      (read_variable_part s).length = (s.stop - s.start + s.step - 1) / s.step ∧
      ∀ i ∈ sliceIndices 2 s, s.start ≤ i ∧ i < s.stop) := by
  constructor
  · intro h2
    have h := sliceIndices_valid_window h1 h2 hstep
    exact ⟨by simpa [read_variable_lon] using h.1, h.2⟩
  · intro h2
    have h := sliceIndices_valid_window h1 h2 hstep
    exact ⟨by simpa [read_variable_part] using h.1, h.2⟩

/-- Witness for C4 at the window `(start, stop, step) = (0, 10, 3)`. -/
theorem window_length_law_witness :
    ((0 : ℕ) < 10 ∧ (10 : ℕ) ≤ 1440) ∧
    ((10 : ℕ) ≤ 1440 →
      (read_variable_lon ⟨0, 10, 3⟩).length = (10 - 0 + 3 - 1) / 3 ∧
      ∀ i ∈ sliceIndices 1440 ⟨0, 10, 3⟩, 0 ≤ i ∧ i < 10) :=
  ⟨⟨by decide, by decide⟩,
    (window_length_law ⟨0, 10, 3⟩ (by decide) (by decide)).1⟩

/-- C5 refuted: a longitude window whose start lies outside the axis
domain (`start = 1440`) is not rejected; Python slicing clamps it and the
generator returns an empty result with no error. -/
theorem lon_out_of_domain_clamped :
    read_variable_lon_checked ⟨1440, 2000, 1⟩ = Except.ok [] := by decide

/-- C5 amended: for any step ≥ 1 the longitude generator never raises,
whatever the window bounds: it returns `ok` with the bounds clamped to
the axis, so every visited index is below 1440 and an out-of-domain
window (such as `start = 1440`) simply yields an empty result.  (Only a
zero step raises, a `ValueError` from `range(...)[slice]`.) -/
theorem lon_window_clamping_amended (s : Slice) (hstep : 1 ≤ s.step) :
    read_variable_lon_checked s = Except.ok (read_variable_lon s) ∧
    ∀ i ∈ sliceIndices 1440 s, i < 1440 := by
  constructor
  · have h : ¬ s.step = 0 := by omega
    simp [read_variable_lon_checked, h]
  · intro i hi
    have ha := sliceIndices_ub hstep hi
    have hb : min s.stop 1440 ≤ 1440 := Nat.min_le_right _ _
    omega

/-- Witness for the amended C5 at the out-of-domain window
`(1440, 2000, 1)`. -/
theorem lon_window_clamping_amended_witness :
    read_variable_lon_checked ⟨1440, 2000, 1⟩ = Except.ok (read_variable_lon ⟨1440, 2000, 1⟩) ∧
    ∀ i ∈ sliceIndices 1440 ⟨1440, 2000, 1⟩, i < 1440 :=
  lon_window_clamping_amended ⟨1440, 2000, 1⟩ (by decide)

/-- C6 refuted: requesting `humidity`, which is neither a coordinate nor
a catalog variable, does not fail with any error: `parse_constraints`
silently skips the name and returns a result without it (and without any
other key), leaving the dataset untouched. -/
theorem unknown_variable_silently_ignored :
    parse_constraints (fun n => n) initState [[("humidity", [])]] =
      Except.ok ([], initState) := by decide

/-- C6 amended: a requested name that is neither a coordinate name nor
one of the 5 catalog variable names is silently skipped, not rejected:
the call succeeds, the unknown name is absent from the result's keys
(here the only requested name, so the key list is empty), and the
dataset state is unchanged. -/
theorem unknown_variable_skipped_amended (bytes : ℕ → ℕ) (st : DatasetState)
    (name : String) (sl : List Slice)
    (h1 : name ∉ coordNames) (h2 : name ∉ variableNames) :
    parse_constraints bytes st [[(name, sl)]] = Except.ok ([], st) := by
  simp only [coordNames, List.mem_cons, List.not_mem_nil, or_false, not_or] at h1
  simp only [variableNames, List.mem_cons, List.not_mem_nil, or_false, not_or] at h2
  obtain ⟨n1, n2, n3⟩ := h1
  obtain ⟨m1, m2, m3, m4, m5⟩ := h2
  have hpv : processVar bytes st [(name, sl)] = Except.ok st := by
    simp [processVar, varUpdate, applyUpd, Except.map, lastName, n1, n2, n3, variableNames,
      List.findIdx?_cons, Ne.symm m1, Ne.symm m2, Ne.symm m3, Ne.symm m4, Ne.symm m5]
  simp [parse_constraints, processAll, hpv, datasetKeys, firstName,
    Ne.symm n1, Ne.symm n2, Ne.symm n3,
    Ne.symm m1, Ne.symm m2, Ne.symm m3, Ne.symm m4, Ne.symm m5]

/-- Witness for the amended C6 at the name `humidity`. -/
theorem unknown_variable_skipped_amended_witness :
    parse_constraints (fun n => n) initState [[("humidity", [⟨0, 1, 1⟩])]] =
      Except.ok ([], initState) :=
  unknown_variable_skipped_amended (fun n => n) initState "humidity" [⟨0, 1, 1⟩]
    (by decide) (by decide)

/-- C7: a request for a catalog data variable whose window-spec does not
supply exactly 3 axis windows fails with the source's `ValueError`, whose
message names the offending variable and the count found; the error is
raised before any data is decoded, so nothing is returned. -/
theorem malformed_selection_error (bytes : ℕ → ℕ) (st : DatasetState)
    (name : String) (sl : List Slice)
    (hv : name ∈ variableNames) (hlen : sl.length ≠ 3) :
    parse_constraints bytes st [[(name, sl)]] =
      Except.error (PyError.valueError ("Cannot obtain slices for " ++ name ++
        ". Should be 3 slices, but " ++ toString sl.length ++ " found")) := by
  simp only [variableNames, List.mem_cons, List.not_mem_nil, or_false] at hv
  rcases hv with rfl | rfl | rfl | rfl | rfl <;>
    simp [parse_constraints, processAll, processVar, varUpdate, Except.map, lastName,
      lastSlices, variableNames, List.findIdx?_cons, hlen]

/-- Witness for C7: requesting `wspd` with a 2-axis window-spec. -/
theorem malformed_selection_error_witness :
    parse_constraints (fun n => n) initState
      [[("wspd", [⟨0, 1, 1⟩, ⟨0, 1, 1⟩])]] =
      Except.error (PyError.valueError ("Cannot obtain slices for " ++ "wspd" ++
        ". Should be 3 slices, but " ++ toString ([⟨0, 1, 1⟩, ⟨0, 1, 1⟩] : List Slice).length ++
        " found")) :=
  malformed_selection_error (fun n => n) initState "wspd" [⟨0, 1, 1⟩, ⟨0, 1, 1⟩]
    (by decide) (by decide)

/-- C8 refuted: the request listing the names `{wspd, humidity}` succeeds
(no error), but the result's key set is `{wspd}`: the unknown requested
name `humidity` is omitted, so the key set does not equal the requested
set. -/
theorem projection_filter_counterexample :
    parse_constraints (fun n => n) initState
      [[("wspd", [⟨0, 1, 1⟩, ⟨0, 1, 1⟩, ⟨0, 1, 1⟩])], [("humidity", [])]] =
      Except.ok (["wspd"], setGrid initState "wspd" gridWspd01) ∧
    "humidity" ∉ ["wspd"] := ⟨rfl, by decide⟩

/-- C8 amended: for every non-error request with a non-empty projection,
the result's key set equals the requested names intersected with the
dataset's key set (coordinates plus the 5 catalog variables): requested
names that exist all appear, nothing unrequested appears, but requested
names unknown to the dataset are dropped rather than reported. -/
theorem projection_filter_amended (bytes : ℕ → ℕ) (st : DatasetState)
    (q : List ProjEntry) (keys : List String) (st2 : DatasetState)
    (hq : q ≠ [])
    (h : parse_constraints bytes st q = Except.ok (keys, st2)) :
    ∀ k, k ∈ keys ↔ (k ∈ datasetKeys ∧ k ∈ q.map firstName) := by
  cases q with
  | nil => exact absurd rfl hq
  | cons v rest =>
    unfold parse_constraints at h
    cases hp : processAll bytes st (v :: rest) with
    | error e => rw [hp] at h; exact absurd h (by simp)
    | ok stA =>
      rw [hp] at h
      simp only [Except.ok.injEq, Prod.mk.injEq] at h
      obtain ⟨hkeys, _⟩ := h
      subst hkeys
      intro k
      simp [List.mem_filter]

/-- Witness for the amended C8: the request `{wspd, humidity}` succeeds
with key list `["wspd"]`, and the law instantiated at the key `wspd`. -/
theorem projection_filter_amended_witness :
    "wspd" ∈ (["wspd"] : List String) ↔
      ("wspd" ∈ datasetKeys ∧
        "wspd" ∈ ([[("wspd", [⟨0, 1, 1⟩, ⟨0, 1, 1⟩, ⟨0, 1, 1⟩])], [("humidity", [])]] :
          List ProjEntry).map firstName) :=
  projection_filter_amended (fun n => n) initState
    [[("wspd", [⟨0, 1, 1⟩, ⟨0, 1, 1⟩, ⟨0, 1, 1⟩])], [("humidity", [])]]
    ["wspd"] (setGrid initState "wspd" gridWspd01) (by decide) rfl "wspd"

/-- Processing one projection entry factors as: compute the entry's
effect (error, nothing, or one grid overwrite, all independent of the
incoming state), then apply it to the state. -/
theorem processVar_eq_map (bytes : ℕ → ℕ) (st : DatasetState) (var : ProjEntry) :
    processVar bytes st var = (varUpdate bytes var).map (applyUpd st) := by
  unfold processVar varUpdate
  repeat' first | split | rfl

/-- Processing a whole projection factors the same way: collect the
entries' effects, then fold them over the incoming state. -/
theorem processAll_eq_map (bytes : ℕ → ℕ) (q : List ProjEntry) :
    ∀ st, processAll bytes st q
      = (collectUpds bytes q).map (fun us => us.foldl applyUpd st) := by
  induction q with
  | nil => intro st; rfl
  | cons v rest ih =>
    intro st
    unfold processAll collectUpds
    rw [processVar_eq_map]
    cases varUpdate bytes v with
    | error e => rfl
    | ok u =>
      simp only [Except.map]
      rw [ih (applyUpd st u)]
      cases collectUpds bytes rest with
      | error e => rfl
      | ok us => rfl

/-- `setGrid` never touches the three top-level coordinate data fields. -/
theorem setGrid_coords (st : DatasetState) (n : String) (g : GridData) :
    (setGrid st n g).lonData = st.lonData ∧
    (setGrid st n g).latData = st.latData ∧
    (setGrid st n g).partData = st.partData := by
  unfold setGrid
  split_ifs <;> exact ⟨rfl, rfl, rfl⟩

/-- Folding a list of updates never touches the coordinate data fields. -/
theorem foldl_applyUpd_coords (us : List (Option (String × GridData))) :
    ∀ st : DatasetState,
      (us.foldl applyUpd st).lonData = st.lonData ∧
      (us.foldl applyUpd st).latData = st.latData ∧
      (us.foldl applyUpd st).partData = st.partData := by
  induction us with
  | nil => intro st; exact ⟨rfl, rfl, rfl⟩
  | cons u rest ih =>
    intro st
    simp only [List.foldl_cons]
    obtain ⟨a, b, c⟩ := ih (applyUpd st u)
    cases u with
    | none => exact ⟨a, b, c⟩
    | some p =>
      obtain ⟨hx, hy, hz⟩ := setGrid_coords st p.1 p.2
      exact ⟨by rw [a, applyUpd, hx], by rw [b, applyUpd, hy], by rw [c, applyUpd, hz]⟩

/-- Appending one update to the list shifts `lastGrid` as expected. -/
theorem lastGrid_append_some (us : List (Option (String × GridData)))
    (n : String) (g : GridData) (nm : String) :
    lastGrid (us ++ [some (n, g)]) nm
      = if n = nm then some g else lastGrid us nm := by
  unfold lastGrid
  rw [List.filterMap_append, List.reverse_append]
  by_cases hn : n = nm
  · simp [hn]
  · simp [hn]

/-- Appending a vacuous update does not change `lastGrid`. -/
theorem lastGrid_append_none (us : List (Option (String × GridData))) (nm : String) :
    lastGrid (us ++ [none]) nm = lastGrid us nm := by
  unfold lastGrid
  rw [List.filterMap_append]
  simp

/-- After folding a list of updates, any single grid field of the state
is the last grid written to it, or the original field if none was. -/
theorem foldl_applyUpd_grid (acc : DatasetState → GridData) (nm : String)
    (hacc : ∀ st n g, acc (setGrid st n g) = if n = nm then g else acc st)
    (us : List (Option (String × GridData))) :
    ∀ st : DatasetState,
      acc (us.foldl applyUpd st) = (lastGrid us nm).getD (acc st) := by
  induction us using List.reverseRecOn with
  | nil => intro st; rfl
  | append_singleton rest u ih =>
    intro st
    rw [List.foldl_append]
    simp only [List.foldl_cons, List.foldl_nil]
    cases u with
    | none => rw [lastGrid_append_none, applyUpd, ih st]
    | some p =>
      obtain ⟨n, g⟩ := p
      rw [lastGrid_append_some, applyUpd, hacc]
      by_cases hn : n = nm
      · simp [hn]
      · simp [hn, ih st]

/-- Applying the same update list twice yields the same state as applying
it once: each grid field ends at its last written value either way, and
the coordinate fields are never touched. -/
theorem foldl_applyUpd_idem (us : List (Option (String × GridData))) (st : DatasetState) :
    us.foldl applyUpd (us.foldl applyUpd st) = us.foldl applyUpd st := by
  have htime := foldl_applyUpd_grid (fun s => s.timeGrid) "time"
    (by intro s n g; unfold setGrid; split_ifs <;> simp_all) us
  have hwspd := foldl_applyUpd_grid (fun s => s.wspdGrid) "wspd"
    (by intro s n g; unfold setGrid; split_ifs <;> simp_all) us
  have hvapor := foldl_applyUpd_grid (fun s => s.vaporGrid) "vapor"
    (by intro s n g; unfold setGrid; split_ifs <;> simp_all) us
  have hcloud := foldl_applyUpd_grid (fun s => s.cloudGrid) "cloud"
    (by intro s n g; unfold setGrid; split_ifs <;> simp_all) us
  have hrain := foldl_applyUpd_grid (fun s => s.rainGrid) "rain"
    (by intro s n g; unfold setGrid; split_ifs <;> simp_all) us
  have hco := foldl_applyUpd_coords us
  have collapse : ∀ (o : Option GridData) (x : GridData), o.getD (o.getD x) = o.getD x := by
    intro o x; cases o <;> rfl
  apply DatasetState.ext
  · rw [(hco _).1, (hco _).1]
  · rw [(hco _).2.1, (hco _).2.1]
  · rw [(hco _).2.2, (hco _).2.2]
  · rw [htime (List.foldl applyUpd st us), htime st, collapse]
  · rw [hwspd (List.foldl applyUpd st us), hwspd st, collapse]
  · rw [hvapor (List.foldl applyUpd st us), hvapor st, collapse]
  · rw [hcloud (List.foldl applyUpd st us), hcloud st, collapse]
  · rw [hrain (List.foldl applyUpd st us), hrain st, collapse]

/-- C9 refuted in its frame part: a request for `wspd` over the window
`[0,1)×[0,1)×[0,1)` succeeds, but the handler's dataset after the call
differs from the dataset before it — the decoded coordinate and sample
arrays are stored into `self.dataset` and persist past the request. -/
theorem dataset_state_mutated :
    parse_constraints (fun n => n) initState
      [[("wspd", [⟨0, 1, 1⟩, ⟨0, 1, 1⟩, ⟨0, 1, 1⟩])]] =
      Except.ok (["wspd"], setGrid initState "wspd" gridWspd01) ∧
    setGrid initState "wspd" gridWspd01 ≠ initState := by
  constructor
  · rfl
  · intro h
    have h2 : (setGrid initState "wspd" gridWspd01).wspdGrid = initState.wspdGrid :=
      congrArg DatasetState.wspdGrid h
    simp [setGrid, initState, gridWspd01, noData] at h2

/-- C9 amended: a call to `parse_constraints` is deterministic and
idempotent on its visible result, but not state-free: the dataset state
reached after a successful call is a fixed point — running the same query
again from it returns the same keys and the same state (every grid entry
is simply overwritten with the same freshly computed data) — while the
call itself does mutate the handler's dataset (see the counterexample). -/
theorem parse_constraints_idempotent_amended (bytes : ℕ → ℕ) (st0 : DatasetState)
    (q : List ProjEntry) (keys : List String) (st1 : DatasetState)
    (h : parse_constraints bytes st0 q = Except.ok (keys, st1)) :
    parse_constraints bytes st1 q = Except.ok (keys, st1) := by
  cases q with
  | nil =>
    simp only [parse_constraints, Except.ok.injEq, Prod.mk.injEq] at h
    obtain ⟨h1, h2⟩ := h
    subst h1
    subst h2
    rfl
  | cons v rest =>
    unfold parse_constraints at h ⊢
    rw [processAll_eq_map] at h ⊢
    cases hc : collectUpds bytes (v :: rest) with
    | error e =>
      rw [hc] at h
      simp [Except.map] at h
    | ok us =>
      rw [hc] at h
      simp only [Except.map, Except.ok.injEq, Prod.mk.injEq] at h
      simp only [Except.map]
      obtain ⟨hk, hst⟩ := h
      rw [← hst, foldl_applyUpd_idem, hk]

/-- Witness for the amended C9: the `wspd` request of the counterexample,
re-run from its own post state. -/
theorem parse_constraints_idempotent_amended_witness :
    parse_constraints (fun n => n) (setGrid initState "wspd" gridWspd01)
      [[("wspd", [⟨0, 1, 1⟩, ⟨0, 1, 1⟩, ⟨0, 1, 1⟩])]] =
      Except.ok (["wspd"], setGrid initState "wspd" gridWspd01) :=
  parse_constraints_idempotent_amended (fun n => n) initState
    [[("wspd", [⟨0, 1, 1⟩, ⟨0, 1, 1⟩, ⟨0, 1, 1⟩])]]
    ["wspd"] (setGrid initState "wspd" gridWspd01) rfl

/-- C10: any projection containing an entry whose (last-level) name is a
coordinate name (`lon`, `lat`, `part_of_day`) — in particular a bare
top-level coordinate request — makes `parse_constraints` fail: the
coordinate branch calls the generator method with no window argument, a
`TypeError`, so a coordinate-only request can never return a coordinate
array. -/
theorem coordinate_request_always_fails (bytes : ℕ → ℕ) (st : DatasetState)
    (q : List ProjEntry) (var : ProjEntry) (hmem : var ∈ q)
    (hco : lastName var ∈ coordNames) :
    ∃ e, parse_constraints bytes st q = Except.error e := by
  have hpv : ∀ s : DatasetState, ∃ e, processVar bytes s var = Except.error e := by
    intro s
    simp only [coordNames, List.mem_cons, List.not_mem_nil, or_false] at hco
    rcases hco with h | h | h
    · exact ⟨PyError.typeError ("read_variable_lat missing required argument slices_lat"),
        by simp [processVar, varUpdate, Except.map, h]⟩
    · exact ⟨PyError.typeError ("read_variable_lon missing required argument slices_lot"),
        by simp [processVar, varUpdate, Except.map, h]⟩
    · exact ⟨PyError.typeError ("read_variable_part missing required argument slices_part"),
        by simp [processVar, varUpdate, Except.map, h]⟩
  have hall : ∀ (l : List ProjEntry), var ∈ l →
      ∀ s : DatasetState, ∃ e, processAll bytes s l = Except.error e := by
    intro l
    induction l with
    | nil => intro hm; cases hm
    | cons a rest ih =>
      intro hm s
      rcases List.mem_cons.mp hm with rfl | hm2
      · obtain ⟨e, he⟩ := hpv s
        exact ⟨e, by simp only [processAll, he]⟩
      · cases hv : processVar bytes s a with
        | error e => exact ⟨e, by simp only [processAll, hv]⟩
        | ok s2 =>
          obtain ⟨e, he⟩ := ih hm2 s2
          refine ⟨e, ?_⟩
          simp only [processAll, hv]
          exact he
  cases q with
  | nil => cases hmem
  | cons a rest =>
    obtain ⟨e, he⟩ := hall (a :: rest) hmem st
    exact ⟨e, by simp only [parse_constraints, he]⟩

/-- Witness for C10: the bare coordinate request `lon`. -/
theorem coordinate_request_always_fails_witness :
    ∃ e, parse_constraints (fun n => n) initState [[("lon", [])]] = Except.error e :=
  coordinate_request_always_fails (fun n => n) initState [[("lon", [])]]
    [("lon", [])] (by decide) (by decide)

end SSMI
